import Mathlib

/-!
A shallow embedding, in Lean 4, of the client-side search/filter/sort engine
of the RegSeek static site (file site/js/app.js).  JavaScript strings are
modelled as Lean strings, JavaScript arrays as lists, and absent (undefined)
object fields as Option.  The definitions follow the JavaScript source; the
theorems at the end of the file settle the specification claims about the
engine.
-/

/-- A tool entry of details.tools: either a bare name string or an object
with a name, an optional url and an optional description (the two shapes
handled by the tools section of populateModalContent). -/
inductive Tool where
  | bare : String → Tool
  | obj : String → Option String → Option String → Tool
deriving DecidableEq

/-- The details object of an artifact record.  Of its fields, the engine
only consults tools (for the hasTools filter). -/
structure Details where
  tools : Option (List Tool)
deriving DecidableEq

/-- The metadata object of an artifact record, with the optional fields the
engine reads: criticality, investigation_types, windows_versions, tags. -/
structure Metadata where
  criticality : Option String
  investigation_types : Option (List String)
  windows_versions : Option (List String)
  tags : Option (List String)
deriving DecidableEq

/-- Contribution provenance of a record; the sort engine reads date_added. -/
structure Contribution where
  date_added : Option String
  version : Option String
deriving DecidableEq

/-- An artifact record as consumed by app.js: title, category and
description are always present; every other engine-relevant field is
optional. -/
structure Artifact where
  title : String
  category : String
  description : String
  paths : Option (List String)
  search_tags : Option (List String)
  metadata : Option Metadata
  details : Option Details
  contribution : Option Contribution
deriving DecidableEq

/-- The currentFilters object of app.js: eight independent string fields,
the empty string meaning unset. -/
structure FilterState where
  search : String
  category : String
  criticality : String
  investigationPhase : String
  attackTechnique : String
  windowsVersion : String
  hive : String
  hasTools : String
deriving DecidableEq

/-- The initial value of currentFilters: every field unset. -/
def emptyFilters : FilterState :=
  FilterState.mk "" "" "" "" "" "" "" ""

/-- JavaScript x || d for an optional string x: d when x is undefined or
empty (both falsy), x otherwise. -/
def jsOrStr : Option String → String → String
  | none, d => d
  | some s, d => if s = "" then d else s

/-- JavaScript String.prototype.toLowerCase, on the ASCII fragment. -/
def jsLower (s : String) : String :=
  (s.toList.map Char.toLower).asString

/-- Whether sub occurs as a contiguous sublist of the second argument; the
list-level content of JavaScript String.prototype.includes. -/
def listContainsSub (sub : List Char) : List Char → Bool
  | [] => sub.isEmpty
  | c :: cs => sub.isPrefixOf (c :: cs) || listContainsSub sub cs

/-- JavaScript s.includes(sub). -/
def jsIncludes (s sub : String) : Bool :=
  listContainsSub sub.toList s.toList

/-- JavaScript p.startsWith(q). -/
def jsStartsWith (p q : String) : Bool :=
  q.toList.isPrefixOf p.toList

/-- JavaScript Array.prototype.join(' '). -/
def joinSp : List String → String
  | [] => ""
  | [s] => s
  | s :: r => s ++ " " ++ joinSp r

/-- The paths array of a record, artifact.paths || []. -/
def pathsOf (a : Artifact) : List String := a.paths.getD []

/-- The search_tags array of a record, artifact.search_tags || []. -/
def searchTagsOf (a : Artifact) : List String := a.search_tags.getD []

/-- The metadata tags array, artifact.metadata?.tags || []. -/
def tagsOf (a : Artifact) : List String := (a.metadata.bind Metadata.tags).getD []

/-- The optional-chained artifact.metadata?.criticality (none = undefined). -/
def critField (a : Artifact) : Option String := a.metadata.bind Metadata.criticality

/-- artifact.metadata?.investigation_types || []. -/
def invTypes (a : Artifact) : List String :=
  (a.metadata.bind Metadata.investigation_types).getD []

/-- artifact.metadata?.windows_versions || []. -/
def winVersions (a : Artifact) : List String :=
  (a.metadata.bind Metadata.windows_versions).getD []

/-- artifact.details?.tools || []. -/
def toolsOf (a : Artifact) : List Tool := (a.details.bind Details.tools).getD []

/-- The per-record searchable text built in performSearch: title,
description, category, all paths, all search_tags and all metadata tags,
joined with single spaces. -/
def searchableText (a : Artifact) : String :=
  joinSp ([a.title, a.description, a.category] ++ pathsOf a ++ searchTagsOf a ++ tagsOf a)

/-- The record predicate of performSearch: a conjunction of the eight
filter clauses, each vacuously true when its filter field is unset (the
JavaScript guard on a falsy filter value skips the clause). -/
def matchesFilters (fs : FilterState) (a : Artifact) : Bool :=
  (fs.search == "" || jsIncludes (jsLower (searchableText a)) fs.search) &&
  (fs.category == "" || a.category == fs.category) &&
  (fs.criticality == "" || critField a == some fs.criticality) &&
  (fs.investigationPhase == "" || (invTypes a).contains fs.investigationPhase) &&
  (fs.attackTechnique == "" || (invTypes a).contains fs.attackTechnique) &&
  (fs.windowsVersion == "" || (winVersions a).contains fs.windowsVersion) &&
  (fs.hive == "" || (pathsOf a).any (fun p => jsStartsWith p (fs.hive ++ "\\"))) &&
  (fs.hasTools == "" ||
    (!(fs.hasTools == "yes" && (toolsOf a).isEmpty) &&
     !(fs.hasTools == "no" && !(toolsOf a).isEmpty)))

/-- The first step of performSearch: store the lowercased value of the
search box into the search field of the filter state. -/
def applySearch (searchValue : String) (fs : FilterState) : FilterState :=
  FilterState.mk (jsLower searchValue) fs.category fs.criticality fs.investigationPhase
    fs.attackTechnique fs.windowsVersion fs.hive fs.hasTools

/-- performSearch of app.js as a pure function: lowercase the search box
value into the filter state, then keep the records passing every active
filter clause, preserving order. -/
def performSearch (searchValue : String) (fs : FilterState) (artifacts : List Artifact) :
    List Artifact :=
  artifacts.filter (matchesFilters (applySearch searchValue fs))

/-- Sign-valued lexicographic comparison of character lists: the sign of
JavaScript String.prototype.localeCompare in the default code-point
collation, which is all the engine uses of the comparison result. -/
def cmpChars : List Char → List Char → Int
  | [], [] => 0
  | [], _ :: _ => -1
  | _ :: _, [] => 1
  | a :: as, b :: bs => if a < b then -1 else if b < a then 1 else cmpChars as bs

/-- String comparison, a.localeCompare(b) up to sign. -/
def strCmp (a b : String) : Int := cmpChars a.toList b.toList

/-- JavaScript x || y on comparator results, where x may be NaN (none):
NaN and 0 are falsy and yield y, any other number is returned unchanged. -/
def jsOrInt : Option Int → Int → Int
  | none, y => y
  | some v, y => if v = 0 then y else v

/-- JavaScript subtraction on possibly-undefined numbers: the result is
NaN (none) as soon as either operand is undefined. -/
def jsSub : Option Int → Option Int → Option Int
  | some x, some y => some (x - y)
  | _, _ => none

/-- The criticalityOrder lookup table of handleSort; looking up any other
key yields undefined (none). -/
def criticalityOrder (s : String) : Option Int :=
  if s = "high" then some 3
  else if s = "medium" then some 2
  else if s = "low" then some 1
  else if s = "unspecified" then some 0
  else none

/-- The effective criticality string of handleSort,
a.metadata?.criticality || 'unspecified'. -/
def critOf (a : Artifact) : String := jsOrStr (critField a) "unspecified"

/-- The effective contribution date of handleSort,
a.contribution?.date_added || '0000-00-00'. -/
def dateOf (a : Artifact) : String :=
  jsOrStr (a.contribution.bind Contribution.date_added) "0000-00-00"

/-- The comparator of handleSort: a switch on the sort key with default 0. -/
def sortCmp (sortBy : String) (a b : Artifact) : Int :=
  if sortBy = "title" then strCmp a.title b.title
  else if sortBy = "title-desc" then strCmp b.title a.title
  else if sortBy = "category" then
    jsOrInt (some (strCmp a.category b.category)) (strCmp a.title b.title)
  else if sortBy = "criticality" then
    jsOrInt (jsSub (criticalityOrder (critOf b)) (criticalityOrder (critOf a)))
      (strCmp a.title b.title)
  else if sortBy = "recent" then
    jsOrInt (some (strCmp (dateOf b) (dateOf a))) (strCmp a.title b.title)
  else 0

/-- Stable insertion of x into l, before the first y of l with le x y. -/
def insertSorted (le : α → α → Bool) (x : α) : List α → List α
  | [] => [x]
  | y :: ys => if le x y then x :: y :: ys else y :: insertSorted le x ys

/-- A stable comparison sort (insertion sort).  Array.prototype.sort is
stable per the ECMAScript specification, and all stable sorts compute the
same list for a consistent comparator, so this models the [...].sort(...)
call of handleSort. -/
def stableSort (le : α → α → Bool) : List α → List α
  | [] => []
  | x :: xs => insertSorted le x (stableSort le xs)

/-- handleSort of app.js as a pure function on the current result list:
sort by the comparator for the selected key, keeping a before b whenever
the comparator does not order b strictly before a. -/
def handleSort (sortBy : String) (l : List Artifact) : List Artifact :=
  stableSort (fun a b => decide (sortCmp sortBy a b ≤ 0)) l

/-- The criticality rank of a record per the criticalityOrder table:
high 3, medium 2, low 1, anything else (in particular unspecified) 0. -/
def critRank (a : Artifact) : Int :=
  if critOf a = "high" then 3
  else if critOf a = "medium" then 2
  else if critOf a = "low" then 1
  else 0

/-- A record is criticality-well-formed when its effective criticality is
one of the strings the criticalityOrder table knows.  Per the data model,
metadata.criticality is one of high, medium, low, or absent (absent and
empty both map to unspecified). -/
abbrev knownCrit (a : Artifact) : Prop :=
  critOf a = "high" ∨ critOf a = "medium" ∨ critOf a = "low" ∨ critOf a = "unspecified"

/-- A filter state whose only set field is the hive filter. -/
def hiveOnly (h : String) : FilterState :=
  FilterState.mk "" "" "" "" "" "" h ""

/-- A filter state whose only set field is the hasTools filter. -/
def hasToolsOnly (v : String) : FilterState :=
  FilterState.mk "" "" "" "" "" "" "" v

/-- A filter state with both investigation-related filters set. -/
def fsInvBoth : FilterState :=
  FilterState.mk "" "" "" "incident-response" "timeline-analysis" "" "" ""

/-- A minimal record (title a, description b, category c) whose searchable
text is the string a b c. -/
def artifactPlain : Artifact :=
  Artifact.mk "a" "c" "b" none none none none none

/-- A record mentioning Teams, for the case-insensitivity witness. -/
def artifactTeams : Artifact :=
  Artifact.mk "Teams Settings" "communication" "Microsoft Teams configuration"
    none none none none none

/-- A record with a path rooted at the HKLM hive. -/
def artifactHive : Artifact :=
  Artifact.mk "Run Key" "persistence" "Autostart programs"
    (some ["HKLM\\Software\\X"]) none none none none

/-- A record whose only path contains HKLM mid-string, not as its hive. -/
def artifactHiveMid : Artifact :=
  Artifact.mk "Mid Key" "system" "Contains HKLM mid-string"
    (some ["Software\\HKLM\\X"]) none none none none

/-- A record with no details object at all (so details.tools is absent). -/
def artifactNoTools : Artifact :=
  Artifact.mk "Bare Key" "system" "No tools documented" none none none none none

/-- A record tagged with both investigation types used by fsInvBoth. -/
def artifactInv : Artifact :=
  Artifact.mk "Shimcache" "execution" "Application compatibility cache"
    none none
    (some (Metadata.mk none (some ["incident-response", "timeline-analysis"]) none none))
    none none

/-- A high-criticality record titled z. -/
def artifactHighZ : Artifact :=
  Artifact.mk "z" "execution" "d" none none
    (some (Metadata.mk (some "high") none none none)) none none

/-- A medium-criticality record titled m. -/
def artifactMedM : Artifact :=
  Artifact.mk "m" "execution" "d" none none
    (some (Metadata.mk (some "medium") none none none)) none none

/-- A low-criticality record titled b. -/
def artifactLowB : Artifact :=
  Artifact.mk "b" "execution" "d" none none
    (some (Metadata.mk (some "low") none none none)) none none

/-- A record with no criticality set, titled a. -/
def artifactNoCrit : Artifact :=
  Artifact.mk "a" "execution" "d" none none none none none

/-- A sample list covering all four criticality tiers, out of order. -/
def demoCritList : List Artifact :=
  [artifactNoCrit, artifactLowB, artifactHighZ, artifactMedM]

/-- A record whose date_added is the sentinel date 0000-00-00, titled b. -/
def artifactDated : Artifact :=
  Artifact.mk "b" "system" "dated with the sentinel date" none none none none
    (some (Contribution.mk (some "0000-00-00") none))

/-- A record with no contribution data (no date_added), titled a. -/
def artifactUndated : Artifact :=
  Artifact.mk "a" "system" "no contribution data" none none none none none

/-- Two records out of title order, for the unknown-sort-key witness. -/
def artifactZTitle : Artifact :=
  Artifact.mk "z" "system" "d" none none none none none

/-- Companion record to artifactZTitle with the smaller title. -/
def artifactATitle : Artifact :=
  Artifact.mk "a" "system" "d" none none none none none

/-- A record used as rendered card content in the counter claims. -/
def artifactCard : Artifact :=
  Artifact.mk "Run Key" "persistence" "d" none none none none none

/-- The content of the registry-grid element: either the no-artifacts
empty-state markup or the rendered artifact cards. -/
inductive GridContent where
  | emptyState : GridContent
  | items : List Artifact → GridContent
deriving DecidableEq

/-- The part of the document state the render step mutates: the grid
content and the number shown by the visible-artifacts counter. -/
structure UIState where
  grid : GridContent
  visibleCount : Nat
deriving DecidableEq

/-- updateVisibleCount writes the given count into the counter element. -/
def updateVisibleCount (count : Nat) (ui : UIState) : UIState :=
  UIState.mk ui.grid count

/-- renderArtifacts of app.js: on an empty list it writes the empty-state
markup and returns early, without touching the visible counter; otherwise
it renders the cards and then calls updateVisibleCount with the length. -/
def renderArtifacts (artifacts : List Artifact) (ui : UIState) : UIState :=
  if artifacts.length = 0 then UIState.mk GridContent.emptyState ui.visibleCount
  else updateVisibleCount artifacts.length (UIState.mk (GridContent.items artifacts) ui.visibleCount)

/-! ## Filter-engine lemmas -/

lemma matchesFilters_emptyFilters (a : Artifact) : matchesFilters emptyFilters a = true := by
  simp [matchesFilters, emptyFilters]

lemma listContainsSub_singleton_of_mem {c : Char} {cs : List Char} (h : c ∈ cs) :
    listContainsSub [c] cs = true := by
  induction cs with
  | nil => cases h
  | cons d ds ih =>
    rcases List.mem_cons.mp h with h1 | h2
    · subst h1
      simp [listContainsSub, List.isPrefixOf]
    · simp [listContainsSub, ih h2]

lemma space_mem_searchable (a : Artifact) : ' ' ∈ (jsLower (searchableText a)).toList := by
  have h : (jsLower (searchableText a)).toList = (searchableText a).toList.map Char.toLower := rfl
  rw [h]
  refine List.mem_map.mpr ⟨' ', ?_, by decide⟩
  have h2 : searchableText a =
      a.title ++ " " ++ joinSp (a.description :: a.category ::
        (pathsOf a ++ searchTagsOf a ++ tagsOf a)) := rfl
  have h3 : ∀ s t : String, (s ++ t).toList = s.toList ++ t.toList := fun s t =>
    String.data_append s t
  rw [h2, h3, h3]
  simp

/-- C1: for a filter state with every field unset (and an empty search
box), performSearch returns the full input list unchanged and in order. -/
theorem performSearch_all_unset_id (l : List Artifact) :
    performSearch "" emptyFilters l = l := by
  have h : applySearch "" emptyFilters = emptyFilters := rfl
  simp only [performSearch, h]
  exact List.filter_eq_self.mpr fun a _ => matchesFilters_emptyFilters a

/-- C2: with only the hive filter set to a non-empty value h, a record
passes the filter predicate iff at least one of its paths starts with h
followed by a backslash (prefix match, not substring match). -/
theorem matchesFilters_hive_iff (a : Artifact) (h : String) (hne : h ≠ "") :
    matchesFilters (hiveOnly h) a = true ↔
      ∃ p ∈ pathsOf a, (h ++ "\\").toList <+: p.toList := by
  simp [matchesFilters, hiveOnly, hne, jsStartsWith]

/-- Witness for C2: a record with path HKLM\Software\X matches hive filter
HKLM, while a record whose path merely contains HKLM mid-string does not. -/
theorem matchesFilters_hive_iff_witness :
    matchesFilters (hiveOnly "HKLM") artifactHive = true ∧
      matchesFilters (hiveOnly "HKLM") artifactHiveMid = false := by
  constructor
  · exact (matchesFilters_hive_iff artifactHive "HKLM" (by decide)).mpr
      ⟨"HKLM\\Software\\X", by decide, by decide⟩
  · decide

/-- C5 counterexample: the search string consisting of a single tab is
whitespace-only, yet it fails to match a record whose searchable text
contains no tab, so the filter does not return the full input list. -/
theorem performSearch_tab_excludes :
    performSearch "\t" emptyFilters [artifactPlain] = [] := by decide

/-- C5 amended: the empty search string matches every record, and so does
the single-space search string (the searchable text always joins at least
three fields with spaces); other whitespace-only search strings are
ordinary substring queries and may exclude records. -/
theorem performSearch_space_id (l : List Artifact) :
    performSearch " " emptyFilters l = l ∧ performSearch "" emptyFilters l = l := by
  constructor
  · simp only [performSearch]
    refine List.filter_eq_self.mpr fun a _ => ?_
    have ha : applySearch " " emptyFilters = FilterState.mk " " "" "" "" "" "" "" "" := rfl
    have hs : jsIncludes (jsLower (searchableText a)) " " = true := by
      have hmem := listContainsSub_singleton_of_mem (space_mem_searchable a)
      simpa [jsIncludes] using hmem
    rw [ha]
    simp [matchesFilters, hs]
  · have h : applySearch "" emptyFilters = emptyFilters := rfl
    simp only [performSearch, h]
    exact List.filter_eq_self.mpr fun a _ => matchesFilters_emptyFilters a

lemma matchesFilters_hasToolsOnly_no (a : Artifact) :
    matchesFilters (hasToolsOnly "no") a = (toolsOf a).isEmpty := by
  cases hE : (toolsOf a).isEmpty <;> simp [matchesFilters, hasToolsOnly, hE]

lemma matchesFilters_hasToolsOnly_yes (a : Artifact) :
    matchesFilters (hasToolsOnly "yes") a = !(toolsOf a).isEmpty := by
  cases hE : (toolsOf a).isEmpty <;> simp [matchesFilters, hasToolsOnly, hE]

/-- C8: for the hasTools filter, a record whose details.tools is absent or
empty matches the value no and is excluded by the value yes, and the value
yes matches exactly the records whose tools list is non-empty; the
predicate is total, so it never throws. -/
theorem matchesFilters_hasTools (a : Artifact) :
    (toolsOf a = [] →
      matchesFilters (hasToolsOnly "no") a = true ∧
        matchesFilters (hasToolsOnly "yes") a = false) ∧
      (matchesFilters (hasToolsOnly "yes") a = true ↔ toolsOf a ≠ []) := by
  constructor
  · intro h
    constructor <;> simp [matchesFilters_hasToolsOnly_no, matchesFilters_hasToolsOnly_yes, h]
  · rw [matchesFilters_hasToolsOnly_yes]
    simp

/-- Witness for C8: a record with no details object matches hasTools=no
and is excluded by hasTools=yes. -/
theorem matchesFilters_hasTools_witness :
    toolsOf artifactNoTools = [] ∧
      matchesFilters (hasToolsOnly "no") artifactNoTools = true ∧
      matchesFilters (hasToolsOnly "yes") artifactNoTools = false :=
  ⟨rfl, ((matchesFilters_hasTools artifactNoTools).1 rfl).1,
    ((matchesFilters_hasTools artifactNoTools).1 rfl).2⟩

/-- C9: filtering is case-insensitive in the search string: two search box
values with the same lowercasing produce identical result lists, because
performSearch lowercases the search value and the searchable text before
the substring test. -/
theorem performSearch_case_insensitive (s s' : String) (fs : FilterState) (l : List Artifact)
    (h : jsLower s = jsLower s') :
    performSearch s fs l = performSearch s' fs l := by
  simp only [performSearch, applySearch, h]

/-- Witness for C9: searching TEAMS and teams give the same result list. -/
theorem performSearch_case_insensitive_witness :
    jsLower "TEAMS" = jsLower "teams" ∧
      performSearch "TEAMS" emptyFilters [artifactTeams] =
        performSearch "teams" emptyFilters [artifactTeams] :=
  ⟨by decide, performSearch_case_insensitive "TEAMS" "teams" emptyFilters [artifactTeams]
    (by decide)⟩

/-- C10: the investigation-phase and attack-technique filters are distinct
FilterState fields that both test membership in metadata.investigation_types
and combine by logical AND: when both are set (to distinct values), a record
passes only if its investigation_types contains both values. -/
theorem matchesFilters_inv_both (fs : FilterState) (a : Artifact)
    (h1 : fs.investigationPhase ≠ "") (h2 : fs.attackTechnique ≠ "")
    (_h3 : fs.investigationPhase ≠ fs.attackTechnique)
    (hm : matchesFilters fs a = true) :
    fs.investigationPhase ∈ invTypes a ∧ fs.attackTechnique ∈ invTypes a := by
  simp only [matchesFilters, Bool.and_eq_true, Bool.or_eq_true, beq_iff_eq] at hm
  obtain ⟨⟨⟨⟨⟨⟨⟨_, _⟩, _⟩, hip⟩, hat⟩, _⟩, _⟩, _⟩ := hm
  constructor
  · rcases hip with hip | hip
    · exact absurd hip h1
    · simpa using hip
  · rcases hat with hat | hat
    · exact absurd hat h2
    · simpa using hat

/-- Witness for C10: a record tagged with both incident-response and
timeline-analysis passes the conjunction of the two filters, and both tags
are indeed members of its investigation_types. -/
theorem matchesFilters_inv_both_witness :
    "incident-response" ∈ invTypes artifactInv ∧
      "timeline-analysis" ∈ invTypes artifactInv :=
  matchesFilters_inv_both fsInvBoth artifactInv (by decide) (by decide) (by decide) (by decide)

/-! ## Stable-sort lemmas -/

lemma mem_insertSorted {le : α → α → Bool} {x a : α} :
    ∀ {l : List α}, a ∈ insertSorted le x l ↔ a = x ∨ a ∈ l := by
  intro l
  induction l with
  | nil => simp [insertSorted]
  | cons y ys ih =>
    by_cases h : le x y = true
    · simp [insertSorted, h]
    · simp only [insertSorted, if_neg h, List.mem_cons, ih]
      tauto

lemma mem_stableSort {le : α → α → Bool} {a : α} :
    ∀ {l : List α}, a ∈ stableSort le l ↔ a ∈ l := by
  intro l
  induction l with
  | nil => simp [stableSort]
  | cons x xs ih => simp [stableSort, mem_insertSorted, ih]

lemma pairwise_insertSorted (le : α → α → Bool) (P : α → Prop)
    (htrans : ∀ a b c, P a → P b → P c → le a b = true → le b c = true → le a c = true)
    (htotal : ∀ a b, P a → P b → le a b = true ∨ le b a = true)
    (x : α) (hx : P x) :
    ∀ l : List α, (∀ a ∈ l, P a) → l.Pairwise (fun a b => le a b = true) →
      (insertSorted le x l).Pairwise (fun a b => le a b = true) := by
  intro l
  induction l with
  | nil =>
    intro _ _
    simp [insertSorted]
  | cons y ys ih =>
    intro hP hpw
    rcases List.pairwise_cons.mp hpw with ⟨hy, hys⟩
    by_cases h : le x y = true
    · simp only [insertSorted, if_pos h]
      refine List.pairwise_cons.mpr ⟨?_, hpw⟩
      intro b hb
      rcases List.mem_cons.mp hb with rfl | hb2
      · exact h
      · exact htrans x y b hx (hP y (List.mem_cons_self y ys))
          (hP b (List.mem_cons_of_mem y hb2)) h (hy b hb2)
    · simp only [insertSorted, if_neg h]
      refine List.pairwise_cons.mpr
        ⟨?_, ih (fun a ha => hP a (List.mem_cons_of_mem y ha)) hys⟩
      intro b hb
      rcases mem_insertSorted.mp hb with rfl | hb2
      · rcases htotal b y hx (hP y (List.mem_cons_self y ys)) with h1 | h1
        · exact absurd h1 h
        · exact h1
      · exact hy b hb2

lemma pairwise_stableSort (le : α → α → Bool) (P : α → Prop)
    (htrans : ∀ a b c, P a → P b → P c → le a b = true → le b c = true → le a c = true)
    (htotal : ∀ a b, P a → P b → le a b = true ∨ le b a = true) :
    ∀ l : List α, (∀ a ∈ l, P a) →
      (stableSort le l).Pairwise (fun a b => le a b = true) := by
  intro l
  induction l with
  | nil =>
    intro _
    simp [stableSort]
  | cons x xs ih =>
    intro hP
    simp only [stableSort]
    refine pairwise_insertSorted le P htrans htotal x (hP x (List.mem_cons_self x xs)) _
      ?_ (ih fun a ha => hP a (List.mem_cons_of_mem x ha))
    intro a ha
    exact hP a (List.mem_cons_of_mem x (mem_stableSort.mp ha))

lemma insertSorted_of_forall {le : α → α → Bool} {x : α} (h : ∀ b, le x b = true) :
    ∀ l, insertSorted le x l = x :: l
  | [] => rfl
  | y :: ys => by simp only [insertSorted, if_pos (h y)]

lemma stableSort_of_forall (le : α → α → Bool) (h : ∀ a b, le a b = true) :
    ∀ l, stableSort le l = l
  | [] => rfl
  | x :: xs => by
    simp only [stableSort]
    rw [stableSort_of_forall le h xs, insertSorted_of_forall (h x)]

/-! ## Comparison lemmas -/

lemma cmpChars_nil_le : ∀ y : List Char, cmpChars [] y ≤ 0
  | [] => by decide
  | _ :: _ => by simp only [cmpChars]; decide

lemma cmpChars_swap (x : List Char) : ∀ y, cmpChars x y = -cmpChars y x := by
  induction x with
  | nil =>
    intro y
    cases y <;> simp [cmpChars]
  | cons a as ih =>
    intro y
    cases y with
    | nil => simp [cmpChars]
    | cons b bs =>
      simp only [cmpChars]
      rcases lt_trichotomy a b with h | h | h
      · simp [h, lt_asymm h]
      · subst h
        simp [lt_irrefl, ih bs]
      · simp [h, lt_asymm h]

lemma cmpChars_eq_zero_iff (x : List Char) : ∀ y, cmpChars x y = 0 ↔ x = y := by
  induction x with
  | nil =>
    intro y
    cases y <;> simp [cmpChars]
  | cons a as ih =>
    intro y
    cases y with
    | nil => simp [cmpChars]
    | cons b bs =>
      simp only [cmpChars]
      rcases lt_trichotomy a b with h | h | h
      · simp [h, List.cons.injEq, ne_of_lt h]
      · subst h
        simp [lt_irrefl, ih bs, List.cons.injEq]
      · simp [h, lt_asymm h, List.cons.injEq, ne_of_gt h]

lemma cmpChars_le_trans (x : List Char) :
    ∀ y z, cmpChars x y ≤ 0 → cmpChars y z ≤ 0 → cmpChars x z ≤ 0 := by
  induction x with
  | nil =>
    intro y z _ _
    exact cmpChars_nil_le z
  | cons a as ih =>
    intro y z hxy hyz
    cases y with
    | nil =>
      simp only [cmpChars] at hxy
      omega
    | cons b bs =>
      cases z with
      | nil =>
        simp only [cmpChars] at hyz
        omega
      | cons c cs =>
        simp only [cmpChars] at hxy hyz ⊢
        rcases lt_trichotomy a b with hab | hab | hab
        · rcases lt_trichotomy b c with hbc | hbc | hbc
          · simp [lt_trans hab hbc]
          · subst hbc
            simp [hab]
          · rw [if_neg (lt_asymm hbc), if_pos hbc] at hyz
            omega
        · subst hab
          rw [if_neg (lt_irrefl a), if_neg (lt_irrefl a)] at hxy
          rcases lt_trichotomy a c with hac | hac | hac
          · simp [hac]
          · subst hac
            rw [if_neg (lt_irrefl a), if_neg (lt_irrefl a)] at hyz ⊢
            exact ih bs cs hxy hyz
          · rw [if_neg (lt_asymm hac), if_pos hac] at hyz
            omega
        · rw [if_neg (lt_asymm hab), if_pos hab] at hxy
          omega

lemma strCmp_eq_zero_iff (x y : String) : strCmp x y = 0 ↔ x = y := by
  rw [strCmp, cmpChars_eq_zero_iff]
  exact String.toList_inj

lemma strCmp_swap (x y : String) : strCmp x y = -strCmp y x :=
  cmpChars_swap x.toList y.toList

lemma strCmp_le_trans {x y z : String} (h1 : strCmp x y ≤ 0) (h2 : strCmp y z ≤ 0) :
    strCmp x z ≤ 0 :=
  cmpChars_le_trans x.toList y.toList z.toList h1 h2

lemma strCmp_le_total (x y : String) : strCmp x y ≤ 0 ∨ strCmp y x ≤ 0 := by
  have h := strCmp_swap x y
  omega

lemma strCmp_lt_trans {x y z : String} (h1 : strCmp x y < 0) (h2 : strCmp y z < 0) :
    strCmp x z < 0 := by
  have hle : strCmp x z ≤ 0 := strCmp_le_trans (le_of_lt h1) (le_of_lt h2)
  rcases lt_or_eq_of_le hle with hlt | heq
  · exact hlt
  · have hxz : x = z := (strCmp_eq_zero_iff x z).mp heq
    subst hxz
    have hs := strCmp_swap x y
    omega

/-! ## Sort-key claims -/

lemma criticalityOrder_known {a : Artifact} (h : knownCrit a) :
    criticalityOrder (critOf a) = some (critRank a) := by
  rcases h with h | h | h | h <;> simp only [criticalityOrder, critRank, h] <;> decide

lemma sortCmp_criticality (a b : Artifact) :
    sortCmp "criticality" a b =
      jsOrInt (jsSub (criticalityOrder (critOf b)) (criticalityOrder (critOf a)))
        (strCmp a.title b.title) := rfl

lemma le_crit_iff {a b : Artifact} (ha : knownCrit a) (hb : knownCrit b) :
    sortCmp "criticality" a b ≤ 0 ↔
      critRank b < critRank a ∨ (critRank a = critRank b ∧ strCmp a.title b.title ≤ 0) := by
  rw [sortCmp_criticality, criticalityOrder_known ha, criticalityOrder_known hb]
  simp only [jsSub, jsOrInt]
  by_cases hd : critRank b - critRank a = 0
  · rw [if_pos hd]
    constructor
    · intro ht
      exact Or.inr ⟨by omega, ht⟩
    · rintro (hlt | ⟨heq, ht⟩)
      · omega
      · exact ht
  · rw [if_neg hd]
    constructor
    · intro hle
      exact Or.inl (by omega)
    · rintro (hlt | ⟨heq, ht⟩) <;> omega

/-- C3: sorting by criticality yields a list in which every earlier record
has a strictly higher criticality rank than every later one (rank high 3,
medium 2, low 1, unspecified 0, descending), or an equal rank and a title
that is no greater (title ascending within a tier).  The records are
assumed criticality-well-formed, as the data model prescribes. -/
theorem handleSort_criticality_sorted (l : List Artifact) (h : ∀ a ∈ l, knownCrit a) :
    (handleSort "criticality" l).Pairwise
      (fun a b => critRank a > critRank b ∨
        (critRank a = critRank b ∧ strCmp a.title b.title ≤ 0)) := by
  have htrans : ∀ a b c : Artifact, knownCrit a → knownCrit b → knownCrit c →
      (decide (sortCmp "criticality" a b ≤ 0)) = true →
      (decide (sortCmp "criticality" b c ≤ 0)) = true →
      (decide (sortCmp "criticality" a c ≤ 0)) = true := by
    intro a b c ha hb hc h1 h2
    rw [decide_eq_true_eq, le_crit_iff ha hb] at h1
    rw [decide_eq_true_eq, le_crit_iff hb hc] at h2
    rw [decide_eq_true_eq, le_crit_iff ha hc]
    rcases h1 with h1 | ⟨e1, t1⟩ <;> rcases h2 with h2 | ⟨e2, t2⟩
    · exact Or.inl (by omega)
    · exact Or.inl (by omega)
    · exact Or.inl (by omega)
    · exact Or.inr ⟨by omega, strCmp_le_trans t1 t2⟩
  have htotal : ∀ a b : Artifact, knownCrit a → knownCrit b →
      (decide (sortCmp "criticality" a b ≤ 0)) = true ∨
        (decide (sortCmp "criticality" b a ≤ 0)) = true := by
    intro a b ha hb
    rw [decide_eq_true_eq, decide_eq_true_eq, le_crit_iff ha hb, le_crit_iff hb ha]
    rcases lt_trichotomy (critRank a) (critRank b) with hr | hr | hr
    · exact Or.inr (Or.inl hr)
    · rcases strCmp_le_total a.title b.title with ht | ht
      · exact Or.inl (Or.inr ⟨hr, ht⟩)
      · exact Or.inr (Or.inr ⟨hr.symm, ht⟩)
    · exact Or.inl (Or.inl hr)
  have hp := pairwise_stableSort (fun a b => decide (sortCmp "criticality" a b ≤ 0)) knownCrit
    htrans htotal l h
  refine List.Pairwise.imp_of_mem ?_ hp
  intro a b hma hmb hab
  have ha := h a (mem_stableSort.mp hma)
  have hb := h b (mem_stableSort.mp hmb)
  simp only [decide_eq_true_eq] at hab
  exact (le_crit_iff ha hb).mp hab

/-- Witness for C3: a list covering all four criticality tiers satisfies
the well-formedness hypothesis and is sorted accordingly. -/
theorem handleSort_criticality_sorted_witness :
    (∀ a ∈ demoCritList, knownCrit a) ∧
      (handleSort "criticality" demoCritList).Pairwise
        (fun a b => critRank a > critRank b ∨
          (critRank a = critRank b ∧ strCmp a.title b.title ≤ 0)) :=
  ⟨by decide, handleSort_criticality_sorted demoCritList (by decide)⟩

lemma sortCmp_recent (a b : Artifact) :
    sortCmp "recent" a b =
      jsOrInt (some (strCmp (dateOf b) (dateOf a))) (strCmp a.title b.title) := rfl

lemma le_recent_iff (a b : Artifact) :
    sortCmp "recent" a b ≤ 0 ↔
      strCmp (dateOf b) (dateOf a) < 0 ∨
        (dateOf a = dateOf b ∧ strCmp a.title b.title ≤ 0) := by
  rw [sortCmp_recent]
  simp only [jsOrInt]
  by_cases hd : strCmp (dateOf b) (dateOf a) = 0
  · rw [if_pos hd]
    have heq : dateOf a = dateOf b := ((strCmp_eq_zero_iff _ _).mp hd).symm
    constructor
    · intro ht
      exact Or.inr ⟨heq, ht⟩
    · rintro (hlt | ⟨_, ht⟩)
      · omega
      · exact ht
  · rw [if_neg hd]
    constructor
    · intro hle
      exact Or.inl (lt_of_le_of_ne hle hd)
    · rintro (hlt | ⟨heq, _⟩)
      · exact le_of_lt hlt
      · exact absurd ((strCmp_eq_zero_iff _ _).mpr heq.symm) hd

/-- C4 amended: sorting by recent orders records by their effective date
(date_added, with an absent or empty date replaced by the sentinel
0000-00-00) descending, ties broken by title ascending.  Consequently a
record with no date_added comes after every record whose date_added is
lexicographically greater than the sentinel (every real ISO date), but it
can precede a record whose date_added equals the sentinel. -/
theorem handleSort_recent_sorted (l : List Artifact) :
    (handleSort "recent" l).Pairwise
      (fun a b => strCmp (dateOf b) (dateOf a) < 0 ∨
        (dateOf a = dateOf b ∧ strCmp a.title b.title ≤ 0)) := by
  have htrans : ∀ a b c : Artifact, True → True → True →
      (decide (sortCmp "recent" a b ≤ 0)) = true →
      (decide (sortCmp "recent" b c ≤ 0)) = true →
      (decide (sortCmp "recent" a c ≤ 0)) = true := by
    intro a b c _ _ _ h1 h2
    rw [decide_eq_true_eq, le_recent_iff] at h1 h2
    rw [decide_eq_true_eq, le_recent_iff]
    rcases h1 with h1 | ⟨e1, t1⟩ <;> rcases h2 with h2 | ⟨e2, t2⟩
    · exact Or.inl (strCmp_lt_trans h2 h1)
    · rw [e2] at h1
      exact Or.inl h1
    · rw [← e1] at h2
      exact Or.inl h2
    · exact Or.inr ⟨e1.trans e2, strCmp_le_trans t1 t2⟩
  have htotal : ∀ a b : Artifact, True → True →
      (decide (sortCmp "recent" a b ≤ 0)) = true ∨
        (decide (sortCmp "recent" b a ≤ 0)) = true := by
    intro a b _ _
    rw [decide_eq_true_eq, decide_eq_true_eq, le_recent_iff, le_recent_iff]
    rcases lt_trichotomy (strCmp (dateOf b) (dateOf a)) 0 with hd | hd | hd
    · exact Or.inl (Or.inl hd)
    · have heq : dateOf a = dateOf b := ((strCmp_eq_zero_iff _ _).mp hd).symm
      rcases strCmp_le_total a.title b.title with ht | ht
      · exact Or.inl (Or.inr ⟨heq, ht⟩)
      · exact Or.inr (Or.inr ⟨heq.symm, ht⟩)
    · have hs := strCmp_swap (dateOf b) (dateOf a)
      exact Or.inr (Or.inl (by omega))
  have hp := pairwise_stableSort (fun a b => decide (sortCmp "recent" a b ≤ 0))
    (fun _ => True) htrans htotal l (fun _ _ => trivial)
  refine hp.imp ?_
  intro a b hab
  simp only [decide_eq_true_eq] at hab
  exact (le_recent_iff a b).mp hab

/-- C4 counterexample: a record whose date_added is the sentinel 0000-00-00
has a date_added, yet the record with no date_added is placed before it
(title tiebreak), refuting that every record with no date_added appears
after every record that has one. -/
theorem handleSort_recent_counterexample :
    (artifactDated.contribution.bind Contribution.date_added).isSome = true ∧
      (artifactUndated.contribution.bind Contribution.date_added).isSome = false ∧
      handleSort "recent" [artifactDated, artifactUndated] =
        [artifactUndated, artifactDated] := by
  refine ⟨rfl, rfl, ?_⟩
  decide

/-- C7: sorting with a key outside the known set is the identity: the
comparator hits the default case and returns 0 for every pair, and a
stable sort with an all-ties comparator leaves the list unchanged; being a
total function, it never crashes. -/
theorem handleSort_unknown_key_id (k : String) (l : List Artifact)
    (hk : k ∉ ["title", "title-desc", "category", "criticality", "recent"]) :
    handleSort k l = l := by
  have h0 : ∀ a b : Artifact, sortCmp k a b = 0 := by
    intro a b
    simp only [List.mem_cons, not_or, List.not_mem_nil] at hk
    obtain ⟨h1, h2, h3, h4, h5, _⟩ := hk
    simp [sortCmp, h1, h2, h3, h4, h5]
  simp only [handleSort]
  apply stableSort_of_forall
  intro a b
  simp [h0]

/-- Witness for C7: the key date is not in the known set and sorting by it
leaves a title-unsorted list untouched. -/
theorem handleSort_unknown_key_id_witness :
    "date" ∉ ["title", "title-desc", "category", "criticality", "recent"] ∧
      handleSort "date" [artifactZTitle, artifactATitle] =
        [artifactZTitle, artifactATitle] :=
  ⟨by decide, handleSort_unknown_key_id "date" _ (by decide)⟩

/-! ## Render and counter claims -/

/-- C6 counterexample: rendering an empty result list returns early and
leaves the stale visible count (here 1) instead of updating it to 0, so
the visible-count display does not equal the length of the result list. -/
theorem renderArtifacts_empty_count_stale :
    (renderArtifacts [] (UIState.mk (GridContent.items [artifactCard]) 1)).visibleCount ≠
      ([] : List Artifact).length := by decide

/-- C6 amended: whenever the published result list is non-empty, rendering
updates the visible-count display to its length; on an empty result list
renderArtifacts returns early after writing the empty-state markup, and
the counter keeps its previous value. -/
theorem renderArtifacts_count_eq_length (l : List Artifact) (ui : UIState) (h : l ≠ []) :
    (renderArtifacts l ui).visibleCount = l.length := by
  simp only [renderArtifacts]
  rw [if_neg (fun hc => h (List.length_eq_zero.mp hc))]
  rfl

/-- Witness for C6 amended: rendering a one-record list over a stale
counter sets the counter to 1. -/
theorem renderArtifacts_count_eq_length_witness :
    ([artifactCard] ≠ ([] : List Artifact)) ∧
      (renderArtifacts [artifactCard] (UIState.mk GridContent.emptyState 7)).visibleCount =
        [artifactCard].length :=
  ⟨by decide, renderArtifacts_count_eq_length _ _ (by decide)⟩
